import Mathlib

/-!
Shallow embedding of the nodus-adk-agents repository (A2A agent services and
the agent pool manager), with theorems checking the natural-language
specification against the code.

Conventions of the embedding:
- Python strings are modelled through their character lists; the helper
  functions below reimplement the exact semantics of the Python string
  operations used by the source (split, replace, strip, containment).
- Python floats are modelled as exact rationals (the structure PyQ below,
  kept in lowest terms with positive denominator so that structural equality
  is value equality and everything evaluates by kernel reduction).  Every
  numeric fact asserted by the specification involves values and operations
  on which IEEE-754 double arithmetic is exact, so the rational model agrees
  with the code there.
  Transcendental functions and constants of the safe evaluation namespace
  (sin, cos, tan, log, log10, pi, e) have no exact rational value; the model
  maps them to evaluation failures, which is conservative: no claim in scope
  asserts success of an expression using them.
- JSON values are modelled by the inductive J below.  JSON arrays appear in
  the sources only as arrays of strings, modelled by the strList constructor.
- Fallible Python code is modelled with Except; the exception class
  distinctions that the handlers branch on are modelled explicitly.
-/

deriving instance DecidableEq for Except

namespace Nodus

/-! ### Exact rational numbers with purely structural arithmetic -/

/-- Euclidean algorithm with explicit fuel, so that it reduces in the kernel. -/
def natGcdF : ℕ → ℕ → ℕ → ℕ
  | 0, m, k => m + k
  | _ + 1, 0, k => k
  | f + 1, m + 1, k => natGcdF f (k % (m + 1)) (m + 1)

/-- Greatest common divisor (fuel instantiated generously). -/
def natGcd (m k : ℕ) : ℕ := natGcdF (m + k + 2) m k

/-- A rational number: numerator and denominator.  Values built by mkPyQ are
in lowest terms with positive denominator, so derived equality decides value
equality on them. -/
structure PyQ where
  n : ℤ
  d : ℤ
deriving DecidableEq, Repr

/-- Normalise a fraction: positive denominator, lowest terms.  All call
sites guard against a zero denominator. -/
def mkPyQ (n d : ℤ) : PyQ :=
  if d = 0 then ⟨0, 0⟩
  else
    let n2 := if d < 0 then -n else n
    let d2 := if d < 0 then -d else d
    let g : ℤ := (natGcd n2.natAbs d2.natAbs : ℕ)
    ⟨n2 / g, d2 / g⟩

/-- Embed an integer. -/
def PyQ.ofInt (z : ℤ) : PyQ := ⟨z, 1⟩

/-- Addition. -/
def PyQ.add (a b : PyQ) : PyQ := mkPyQ (a.n * b.d + b.n * a.d) (a.d * b.d)

/-- Subtraction. -/
def PyQ.sub (a b : PyQ) : PyQ := mkPyQ (a.n * b.d - b.n * a.d) (a.d * b.d)

/-- Multiplication. -/
def PyQ.mul (a b : PyQ) : PyQ := mkPyQ (a.n * b.n) (a.d * b.d)

/-- Negation. -/
def PyQ.neg (a : PyQ) : PyQ := ⟨-a.n, a.d⟩

/-- True division; call sites guard against division by zero. -/
def PyQ.div (a b : PyQ) : PyQ := mkPyQ (a.n * b.d) (a.d * b.n)

/-- Absolute value. -/
def PyQ.pabs (a : PyQ) : PyQ := ⟨|a.n|, a.d⟩

/-- Whether the value is zero. -/
def PyQ.isZero (a : PyQ) : Bool := a.n = 0

/-- Whether the value is a (nonnegative or negative) integer. -/
def PyQ.isInt (a : PyQ) : Bool := a.d = 1

/-- Nonnegative integer power. -/
def PyQ.npow (a : PyQ) : ℕ → PyQ
  | 0 => ⟨1, 1⟩
  | k + 1 => (a.npow k).mul a

/-- JSON scalar values and string arrays, as used by the agent wire formats. -/
inductive J where
  | null : J
  | bool (b : Bool) : J
  | num (q : PyQ) : J
  | str (s : String) : J
  | strList (l : List String) : J
deriving DecidableEq, Repr

/-- A JSON object: association list of fields. -/
abbrev JDict := List (String × J)

/-- Dictionary lookup, modelling Python dict.get (returns None when absent). -/
def jGet (ps : JDict) (k : String) : Option J :=
  (ps.find? (fun p => p.1 == k)).map Prod.snd

/-- Python truthiness of a JSON value. -/
def pyTruthy : J → Bool
  | .null => false
  | .bool b => b
  | .num q => !q.isZero
  | .str s => if s = "" then false else true
  | .strList l => if l = [] then false else true

/-- Python truthiness of an optional value (None is falsy). -/
def pyTruthyOpt : Option J → Bool
  | none => false
  | some v => pyTruthy v

/-! ### Character-list models of the Python string operations -/

/-- Whitespace characters recognised by Python str.strip and float(). -/
def isPySpace (c : Char) : Bool :=
  c = ' ' || c = '\t' || c = '\n' || c = '\r' || c = '\x0b' || c = '\x0c'

/-- Whether pat is a prefix of s (on character lists). -/
def hasPfx : List Char → List Char → Bool
  | [], _ => true
  | _ :: _, [] => false
  | p :: ps, c :: cs => p = c && hasPfx ps cs

/-- Python substring containment (pat in s) on character lists. -/
def hasSub (pat : List Char) : List Char → Bool
  | [] => hasPfx pat []
  | c :: cs => hasPfx pat (c :: cs) || hasSub pat cs

/-- Python substring containment on strings. -/
def strHas (s pat : String) : Bool := hasSub pat.data s.data

/-- Fueled worker for Python str.split with a nonempty separator. -/
def splitGo (sep : List Char) : ℕ → List Char → List Char → List (List Char)
  | 0, rest, acc => [acc.reverse ++ rest]
  | _ + 1, [], acc => [acc.reverse]
  | n + 1, c :: cs, acc =>
    if hasPfx sep (c :: cs) then
      acc.reverse :: splitGo sep n (List.drop sep.length (c :: cs)) []
    else
      splitGo sep n cs (c :: acc)

/-- Python str.split(sep) for a nonempty separator sep. -/
def pySplit (s sep : String) : List String :=
  (splitGo sep.data (s.data.length + 1) s.data []).map (fun l => String.mk l)

/-- Fueled worker for Python str.replace with a nonempty pattern. -/
def replGo (pat rep : List Char) : ℕ → List Char → List Char
  | 0, rest => rest
  | _ + 1, [] => []
  | n + 1, c :: cs =>
    if hasPfx pat (c :: cs) then
      rep ++ replGo pat rep n (List.drop pat.length (c :: cs))
    else
      c :: replGo pat rep n cs

/-- Python str.replace(pat, rep) for a nonempty pattern. -/
def pyReplace (s pat rep : String) : String :=
  String.mk (replGo pat.data rep.data (s.data.length + 1) s.data)

/-- Python str.strip(): remove leading and trailing whitespace. -/
def pyStrip (s : String) : String :=
  String.mk (((s.data.dropWhile isPySpace).reverse.dropWhile isPySpace).reverse)

/-! ### A model of the Python float() string parser

Covers the decimal forms (sign, integer part, fractional part, exponent)
that the repository and the specification exercise; the special spellings
inf and nan and digit-group underscores are outside the model. -/

/-- Collect leading decimal digits, returning their values and the rest. -/
def grabDigits : List Char → List ℕ × List Char
  | [] => ([], [])
  | c :: cs =>
    if c.isDigit then
      let r := grabDigits cs
      ((c.toNat - 48) :: r.1, r.2)
    else
      ([], c :: cs)

/-- Value of a big-endian list of decimal digits. -/
def digitsToNat (ds : List ℕ) : ℕ := ds.foldl (fun a d => 10 * a + d) 0

/-- Parse the digits of an exponent and apply it to the mantissa. -/
def readExpDigits (m : PyQ) (neg : Bool) (cs : List Char) : Option PyQ :=
  let r := grabDigits cs
  if r.1.isEmpty || !r.2.isEmpty then none
  else if neg then some (m.div (PyQ.ofInt (10 ^ digitsToNat r.1)))
  else some (m.mul (PyQ.ofInt (10 ^ digitsToNat r.1)))

/-- Parse an optional exponent suffix after the mantissa. -/
def readExpPart (m : PyQ) : List Char → Option PyQ
  | [] => some m
  | c :: cs =>
    if c = 'e' || c = 'E' then
      match cs with
      | '+' :: cs2 => readExpDigits m false cs2
      | '-' :: cs2 => readExpDigits m true cs2
      | cs2 => readExpDigits m false cs2
    else none

/-- Parse an unsigned float literal: digits, optional point, optional exponent. -/
def readUnsigned (cs : List Char) : Option PyQ :=
  let ip := grabDigits cs
  match ip.2 with
  | '.' :: r2 =>
    let fp := grabDigits r2
    if ip.1.isEmpty && fp.1.isEmpty then none
    else
      readExpPart (mkPyQ (digitsToNat ip.1 * 10 ^ fp.1.length + digitsToNat fp.1) (10 ^ fp.1.length)) fp.2
  | _ => if ip.1.isEmpty then none else readExpPart (PyQ.ofInt (digitsToNat ip.1)) ip.2

/-- Model of Python float(string): strips whitespace, then signed decimal. -/
def pyFloatParse (s : String) : Option PyQ :=
  match (pyStrip s).data with
  | '+' :: cs => readUnsigned cs
  | '-' :: cs => (readUnsigned cs).map PyQ.neg
  | cs => readUnsigned cs

/-! ### The calculator expression language

Model of evaluating a string with Python eval under the restricted namespace
of a2a_calculator_agent.safe_eval_expression.  The model covers the
arithmetic sublanguage the calculator is about: numeric literals, quoted
string literals, identifiers, unary minus and plus, + - * / ** and
parenthesised calls with one or two arguments.  Strings outside this
sublanguage are mapped to evaluation failures, as are the transcendental
functions, which have no exact rational semantics; both are conservative
with respect to every claim in scope. -/

/-- The apostrophe character (used for Python string literals). -/
def qch : Char := Char.ofNat 39

/-- Tokens of the arithmetic sublanguage. -/
inductive Tok where
  | num (q : PyQ)
  | ident (s : String)
  | lit (s : String)
  | plus
  | minus
  | star
  | slash
  | dstar
  | lpar
  | rpar
  | comma
deriving DecidableEq, Repr

/-- Character classes for identifiers. -/
def isIdentStart (c : Char) : Bool := c.isAlpha || c = '_'

/-- Continuation characters for identifiers. -/
def isIdentChar (c : Char) : Bool := c.isAlphanum || c = '_'

/-- Scan a quoted string literal after its opening quote; returns the
content and the rest after the closing quote. -/
def grabLit (quote : Char) : List Char → Option (List Char × List Char)
  | [] => none
  | c :: cs =>
    if c = quote then some ([], cs)
    else (grabLit quote cs).map (fun r => (c :: r.1, r.2))

/-- Fueled tokenizer.  Returns none on a character it cannot lex, which
models a Python syntax error for the sublanguage. -/
def tokGo : ℕ → List Char → Option (List Tok)
  | 0, _ => none
  | _ + 1, [] => some []
  | f + 1, c :: cs =>
    if isPySpace c then tokGo f cs
    else if c.isDigit then
      let ip := grabDigits (c :: cs)
      match ip.2 with
      | '.' :: r2 =>
        let fp := grabDigits r2
        (tokGo f fp.2).map
          (fun ts => Tok.num (mkPyQ (digitsToNat ip.1 * 10 ^ fp.1.length + digitsToNat fp.1) (10 ^ fp.1.length)) :: ts)
      | _ => (tokGo f ip.2).map (fun ts => Tok.num (PyQ.ofInt (digitsToNat ip.1)) :: ts)
    else if isIdentStart c then
      let r := (c :: cs).span isIdentChar
      (tokGo f r.2).map (fun ts => Tok.ident (String.mk r.1) :: ts)
    else if c = qch || c = '"' then
      match grabLit c cs with
      | none => none
      | some r => (tokGo f r.2).map (fun ts => Tok.lit (String.mk r.1) :: ts)
    else if c = '*' then
      match cs with
      | '*' :: cs2 => (tokGo f cs2).map (fun ts => Tok.dstar :: ts)
      | _ => (tokGo f cs).map (fun ts => Tok.star :: ts)
    else if c = '+' then (tokGo f cs).map (fun ts => Tok.plus :: ts)
    else if c = '-' then (tokGo f cs).map (fun ts => Tok.minus :: ts)
    else if c = '/' then (tokGo f cs).map (fun ts => Tok.slash :: ts)
    else if c = '(' then (tokGo f cs).map (fun ts => Tok.lpar :: ts)
    else if c = ')' then (tokGo f cs).map (fun ts => Tok.rpar :: ts)
    else if c = ',' then (tokGo f cs).map (fun ts => Tok.comma :: ts)
    else none

/-- Tokenize a string of the arithmetic sublanguage. -/
def tokenize (s : String) : Option (List Tok) := tokGo (s.data.length + 1) s.data

/-- Abstract syntax of the arithmetic sublanguage. -/
inductive PyExpr where
  | num (q : PyQ)
  | lit (s : String)
  | name (x : String)
  | neg (a : PyExpr)
  | add (a b : PyExpr)
  | sub (a b : PyExpr)
  | mul (a b : PyExpr)
  | div (a b : PyExpr)
  | pow (a b : PyExpr)
  | call1 (f : String) (a : PyExpr)
  | call2 (f : String) (a b : PyExpr)
deriving DecidableEq, Repr

mutual

/-- Parse an atom: literal, name, call, or parenthesised expression. -/
def pAtom : ℕ → List Tok → Option (PyExpr × List Tok)
  | 0, _ => none
  | _ + 1, Tok.num q :: ts => some (.num q, ts)
  | _ + 1, Tok.lit s :: ts => some (.lit s, ts)
  | f + 1, Tok.ident g :: Tok.lpar :: ts =>
    match pAdd f ts with
    | some (a, Tok.rpar :: ts2) => some (.call1 g a, ts2)
    | some (a, Tok.comma :: ts2) =>
      match pAdd f ts2 with
      | some (b, Tok.rpar :: ts3) => some (.call2 g a b, ts3)
      | _ => none
    | _ => none
  | _ + 1, Tok.ident x :: ts => some (.name x, ts)
  | f + 1, Tok.lpar :: ts =>
    match pAdd f ts with
    | some (a, Tok.rpar :: ts2) => some (a, ts2)
    | _ => none
  | _ + 1, _ => none

/-- Parse a power: atom optionally followed by ** (right associative, with a
possibly signed exponent, matching Python precedence). -/
def pPow : ℕ → List Tok → Option (PyExpr × List Tok)
  | 0, _ => none
  | f + 1, ts =>
    match pAtom f ts with
    | some (a, Tok.dstar :: ts2) =>
      match pUnary f ts2 with
      | some (b, ts3) => some (.pow a b, ts3)
      | none => none
    | r => r

/-- Parse a unary expression: optional chain of unary minus and plus. -/
def pUnary : ℕ → List Tok → Option (PyExpr × List Tok)
  | 0, _ => none
  | f + 1, Tok.minus :: ts =>
    match pUnary f ts with
    | some (a, ts2) => some (.neg a, ts2)
    | none => none
  | f + 1, Tok.plus :: ts => pUnary f ts
  | f + 1, ts => pPow f ts

/-- Left-associative chain of * and /. -/
def pMulGo : ℕ → PyExpr → List Tok → Option (PyExpr × List Tok)
  | 0, _, _ => none
  | f + 1, a, Tok.star :: ts =>
    match pUnary f ts with
    | some (b, ts2) => pMulGo f (.mul a b) ts2
    | none => none
  | f + 1, a, Tok.slash :: ts =>
    match pUnary f ts with
    | some (b, ts2) => pMulGo f (.div a b) ts2
    | none => none
  | _ + 1, a, ts => some (a, ts)

/-- Parse a product. -/
def pMul : ℕ → List Tok → Option (PyExpr × List Tok)
  | 0, _ => none
  | f + 1, ts =>
    match pUnary f ts with
    | some (a, ts2) => pMulGo f a ts2
    | none => none

/-- Left-associative chain of + and binary -. -/
def pAddGo : ℕ → PyExpr → List Tok → Option (PyExpr × List Tok)
  | 0, _, _ => none
  | f + 1, a, Tok.plus :: ts =>
    match pMul f ts with
    | some (b, ts2) => pAddGo f (.add a b) ts2
    | none => none
  | f + 1, a, Tok.minus :: ts =>
    match pMul f ts with
    | some (b, ts2) => pAddGo f (.sub a b) ts2
    | none => none
  | _ + 1, a, ts => some (a, ts)

/-- Parse a sum. -/
def pAdd : ℕ → List Tok → Option (PyExpr × List Tok)
  | 0, _ => none
  | f + 1, ts =>
    match pMul f ts with
    | some (a, ts2) => pAddGo f a ts2
    | none => none

end

/-- Parse a whole token list as one expression. -/
def parseToks (ts : List Tok) : Option PyExpr :=
  match pAdd (8 * ts.length + 8) ts with
  | some (a, []) => some a
  | _ => none

/-- Tokenize and parse a string of the arithmetic sublanguage. -/
def parseFull (s : String) : Option PyExpr :=
  match tokenize s with
  | none => none
  | some ts => parseToks ts

/-- Values produced by evaluation: floats, strings and the function objects
stored in the restricted namespace. -/
inductive PyVal where
  | num (q : PyQ)
  | strv (s : String)
  | func (f : String)
deriving DecidableEq, Repr

/-- The names of the restricted namespace safe_dict of safe_eval_expression. -/
def safe_dict_names : List String :=
  ["sqrt", "pow", "abs", "round", "pi", "e", "sin", "cos", "tan", "log", "log10"]

/-- Downward scan for an exact natural square root. -/
def sqrtScan (target : ℕ) : ℕ → Option ℕ
  | 0 => if 0 = target then some 0 else none
  | k + 1 => if (k + 1) * (k + 1) = target then some (k + 1) else sqrtScan target k

/-- Exact square root of a natural number, when it exists. -/
def exactSqrt (m : ℕ) : Option ℕ := sqrtScan m m

/-- Model of math.sqrt on the exact rationals: defined on perfect squares,
a failure otherwise (the float approximation has no exact rational value;
no claim in scope depends on an inexact square root succeeding). -/
def qsqrt (q : PyQ) : Except String PyQ :=
  if q.n < 0 then .error "math domain error"
  else
    match exactSqrt q.n.natAbs, exactSqrt q.d.natAbs with
    | some a, some b => .ok ⟨a, b⟩
    | _, _ => .error "irrational square root is outside the exact model"

/-- Model of Python round(x): round half to even, returning an integer. -/
def pyRound (q : PyQ) : PyQ :=
  let fl : ℤ := q.n / q.d
  let r : PyQ := q.sub (PyQ.ofInt fl)
  if r.n * 2 < r.d then PyQ.ofInt fl
  else if r.n * 2 > r.d then PyQ.ofInt (fl + 1)
  else if fl % 2 = 0 then PyQ.ofInt fl else PyQ.ofInt (fl + 1)

/-- Exponentiation with a rational base and exponent: defined for integer
exponents, a failure otherwise (fractional powers are irrational in
general; no claim in scope depends on one succeeding). -/
def qpow (a b : PyQ) : Except String PyQ :=
  if b.isInt then
    if 0 ≤ b.n then .ok (a.npow b.n.toNat)
    else if a.isZero then .error "0 cannot be raised to a negative power"
    else .ok ((PyQ.ofInt 1).div (a.npow (-b.n).toNat))
  else .error "fractional exponent is outside the exact model"

/-- Application of a one-argument call in the restricted namespace.  The
callable name is known to be in safe_dict_names when this runs. -/
def applyFn1 (f : String) (v : PyVal) : Except String PyVal :=
  match f, v with
  | "sqrt", .num q => (qsqrt q).map .num
  | "abs", .num q => .ok (.num q.pabs)
  | "round", .num q => .ok (.num (pyRound q))
  | "pow", _ => .error "pow expected 2 arguments, got 1"
  | "pi", _ => .error "float object is not callable"
  | "e", _ => .error "float object is not callable"
  | "sin", _ => .error "transcendental function is outside the exact model"
  | "cos", _ => .error "transcendental function is outside the exact model"
  | "tan", _ => .error "transcendental function is outside the exact model"
  | "log", _ => .error "transcendental function is outside the exact model"
  | "log10", _ => .error "transcendental function is outside the exact model"
  | _, _ => .error "unsupported argument type"

/-- Application of a two-argument call in the restricted namespace. -/
def applyFn2 (f : String) (v w : PyVal) : Except String PyVal :=
  match f, v, w with
  | "pow", .num a, .num b => (qpow a b).map .num
  | "round", .num _, .num _ => .error "round to digits is outside the exact model"
  | "log", .num _, .num _ => .error "transcendental function is outside the exact model"
  | _, _, _ => .error "unsupported argument type"

/-- Binary arithmetic operators on values.  Python string repetition and
concatenation beyond what the claims exercise is mapped to failures. -/
def applyBin (op : String) (v w : PyVal) : Except String PyVal :=
  match v, w with
  | .num a, .num b =>
    if op = "+" then .ok (.num (a.add b))
    else if op = "-" then .ok (.num (a.sub b))
    else if op = "*" then .ok (.num (a.mul b))
    else if op = "/" then
      if b.isZero then .error "division by zero" else .ok (.num (a.div b))
    else (qpow a b).map .num
  | .strv a, .strv b =>
    if op = "+" then .ok (.strv (a ++ b)) else .error "unsupported operand types"
  | _, _ => .error "unsupported operand types"

/-- Evaluation of an expression against the restricted namespace: name
lookups hit only safe_dict_names, mirroring eval with empty builtins and
safe_dict as the local namespace. -/
def evalE : PyExpr → Except String PyVal
  | .num q => .ok (.num q)
  | .lit s => .ok (.strv s)
  | .name x =>
    if x = "pi" || x = "e" then .error "irrational constant is outside the exact model"
    else if safe_dict_names.contains x then .ok (.func x)
    else .error ("name " ++ x ++ " is not defined")
  | .neg a =>
    match evalE a with
    | .ok (.num q) => .ok (.num q.neg)
    | .ok _ => .error "bad operand type for unary minus"
    | .error m => .error m
  | .add a b =>
    match evalE a with
    | .error m => .error m
    | .ok v =>
      match evalE b with
      | .error m => .error m
      | .ok w => applyBin "+" v w
  | .sub a b =>
    match evalE a with
    | .error m => .error m
    | .ok v =>
      match evalE b with
      | .error m => .error m
      | .ok w => applyBin "-" v w
  | .mul a b =>
    match evalE a with
    | .error m => .error m
    | .ok v =>
      match evalE b with
      | .error m => .error m
      | .ok w => applyBin "*" v w
  | .div a b =>
    match evalE a with
    | .error m => .error m
    | .ok v =>
      match evalE b with
      | .error m => .error m
      | .ok w => applyBin "/" v w
  | .pow a b =>
    match evalE a with
    | .error m => .error m
    | .ok v =>
      match evalE b with
      | .error m => .error m
      | .ok w => applyBin "**" v w
  | .call1 g a =>
    if safe_dict_names.contains g then
      match evalE a with
      | .error m => .error m
      | .ok v => applyFn1 g v
    else .error ("name " ++ g ++ " is not defined")
  | .call2 g a b =>
    if safe_dict_names.contains g then
      match evalE a with
      | .error m => .error m
      | .ok v =>
        match evalE b with
        | .error m => .error m
        | .ok w => applyFn2 g v w
    else .error ("name " ++ g ++ " is not defined")

/-- All names an expression references (identifiers and callable names). -/
def exprNames : PyExpr → List String
  | .num _ => []
  | .lit _ => []
  | .name x => [x]
  | .neg a => exprNames a
  | .add a b => exprNames a ++ exprNames b
  | .sub a b => exprNames a ++ exprNames b
  | .mul a b => exprNames a ++ exprNames b
  | .div a b => exprNames a ++ exprNames b
  | .pow a b => exprNames a ++ exprNames b
  | .call1 g a => g :: exprNames a
  | .call2 g a b => g :: (exprNames a ++ exprNames b)

/-- Final float(result) conversion applied by safe_eval_expression. -/
def valToFloat (v : PyVal) : Except String PyQ :=
  match v with
  | .num q => .ok q
  | .strv s =>
    match pyFloatParse s with
    | some q => .ok q
    | none => .error ("could not convert string to float: " ++ s)
  | .func _ => .error "float() argument cannot be a function"

/-- The eval branch of safe_eval_expression: parse, evaluate against the
restricted namespace, convert to float; every failure is wrapped into the
ValueError message prefix the source uses. -/
def evalBranch (s : String) : Except String PyQ :=
  let r : Except String PyQ :=
    match parseFull s with
    | none => .error "invalid syntax"
    | some ast =>
      match evalE ast with
      | .error m => .error m
      | .ok v => valToFloat v
  match r with
  | .ok q => .ok q
  | .error m => .error ("Invalid expression: " ++ m)

/-- The mojibake spelling of the radical glyph that the source replaces. -/
def radicalGlyph : String := String.mk [Char.ofNat 226, Char.ofNat 710, Char.ofNat 353]

/-- The textual substitutions applied first by safe_eval_expression. -/
def applySubsts (expression : String) : String :=
  pyReplace (pyReplace expression "^" "**") radicalGlyph "sqrt"

/-- Model of a2a_calculator_agent.safe_eval_expression.  Errors are
ValueError messages: the percentage branch can raise ValueError from
float(), and the eval branch wraps every failure in ValueError with the
Invalid expression prefix. -/
def safe_eval_expression (expression : String) : Except String PyQ :=
  let e1 := applySubsts expression
  if strHas e1 "%" && strHas e1 " of " then
    match pySplit e1 " of " with
    | [p0, p1] =>
      match pyFloatParse (pyStrip (pyReplace p0 "%" "")), pyFloatParse (pyStrip p1) with
      | some pct, some v => .ok ((pct.div (PyQ.ofInt 100)).mul v)
      | _, _ => .error "could not convert string to float"
    | _ => evalBranch e1
  else evalBranch e1

/-! ### Common response pieces -/

/-- A JSON-RPC error object. -/
structure ErrObj where
  code : ℤ
  message : String
deriving DecidableEq, Repr

/-- Display form of a number used when the handlers interpolate values into
explanation strings (display only; no claim constrains these strings). -/
def qStr (q : PyQ) : String :=
  toString q.n ++ (if q.d = 1 then "" else "/" ++ toString q.d)

/-- Python str() of an optional JSON value, as interpolated by f-strings. -/
def pyStrOf : Option J → String
  | none => "None"
  | some .null => "None"
  | some (.bool b) => if b then "True" else "False"
  | some (.num q) => qStr q
  | some (.str s) => s
  | some (.strList _) => "list"

/-- Response envelope of the raw-dict agents (weather, currency, HITL math):
result and error are emitted only on their branches, so an Option none means
the key is absent from (or null in) the serialized body. -/
structure RpcResp where
  jsonrpc : String
  result : Option JDict
  error : Option ErrObj
  id : Option J
  status : ℕ
deriving DecidableEq, Repr

/-- Request body of the raw-dict agents, as decoded from JSON. -/
structure RpcBody where
  jsonrpc : Option J
  method : Option J
  params : JDict
  id : Option J
deriving DecidableEq, Repr

namespace Calc

/-! Model of src/nodus_adk_agents/a2a_calculator_agent.py. -/

/-- Exception classes the calculator handler distinguishes. -/
inductive PyExc where
  | valueError (m : String)
  | typeError (m : String)
  | attributeError (m : String)
  | httpException (code : ℕ) (detail : String)
deriving DecidableEq, Repr

/-- Python str() of an exception, as interpolated by the handler; for
HTTPException this is the Starlette form code colon detail. -/
def strOfExc : PyExc → String
  | .valueError m => m
  | .typeError m => m
  | .attributeError m => m
  | .httpException c d => toString c ++ ": " ++ d

/-- The pydantic request model A2ARequest of the calculator agent.  Note
that the jsonrpc field is a plain string defaulting to 2.0: the model
performs no validation of its value. -/
structure A2ARequest where
  jsonrpc : String
  method : String
  params : JDict
  id : ℤ
deriving DecidableEq, Repr

/-- The pydantic response model A2AResponse of the calculator agent.  The
result field is a non-optional dict defaulting to the empty dict, so it is
always serialized as a JSON object, never as null. -/
structure A2AResponse where
  jsonrpc : String
  result : JDict
  error : Option ErrObj
  id : ℤ
deriving DecidableEq, Repr

/-- The serialized result member of a calculator response: always a JSON
object (possibly empty), hence always some, never none. -/
def resultWire (r : A2AResponse) : Option JDict := some r.result

/-- CalculationResult.model_dump (the timestamp is datetime.now at the
call, passed in here as the parameter now). -/
def calculationResultDump (expression : String) (result : PyQ) (explanation now : String) : JDict :=
  [("expression", .str expression), ("result", .num result),
   ("explanation", .str explanation), ("timestamp", .str now)]

/-- Model of float() applied to a fetched parameter, with the exception
class Python raises on each input kind. -/
def pyFloat : Option J → Except PyExc PyQ
  | none => .error (.typeError "float() argument must be a string or a real number, not NoneType")
  | some .null => .error (.typeError "float() argument must be a string or a real number, not NoneType")
  | some (.bool b) => .ok (if b then ⟨1, 1⟩ else ⟨0, 1⟩)
  | some (.num q) => .ok q
  | some (.str s) =>
    match pyFloatParse s with
    | some q => .ok q
    | none => .error (.valueError ("could not convert string to float: " ++ s))
  | some (.strList _) => .error (.typeError "float() argument must be a string or a real number, not list")

/-- The try-block of handle_a2a_request: dispatch on the method name.  An
unknown method raises HTTPException(404), which the except-blocks below
catch like any other exception. -/
def dispatch (now : String) (req : A2ARequest) : Except PyExc A2AResponse :=
  if req.method = "calculate" then
    let expression := jGet req.params "expression"
    if pyTruthyOpt expression = false then
      .error (.valueError "Expression parameter is required")
    else
      match expression with
      | some (.str s) =>
        match safe_eval_expression s with
        | .error m => .error (.valueError m)
        | .ok r =>
          .ok ⟨"2.0",
               calculationResultDump s r ("The result of " ++ s ++ " is " ++ qStr r) now,
               none, req.id⟩
      | _ => .error (.attributeError "object has no attribute replace")
  else if req.method = "percentage" then
    match pyFloat (jGet req.params "percentage") with
    | .error e => .error e
    | .ok p =>
      match pyFloat (jGet req.params "of_value") with
      | .error e => .error e
      | .ok ov =>
        let r := (p.div (PyQ.ofInt 100)).mul ov
        let expression := qStr p ++ "% of " ++ qStr ov
        .ok ⟨"2.0",
             calculationResultDump expression r (expression ++ " is " ++ qStr r) now,
             none, req.id⟩
  else .error (.httpException 404 "Method not found")

/-- Model of the calculator handle_a2a_request: the try-block with the two
except-blocks.  except ValueError maps to error code -32000; every other
exception (including the HTTPException of the unknown-method branch) maps
to -32002 with the Unexpected error prefix.  The response constructors pass
only id and error, so result keeps its pydantic default, the empty dict. -/
def handle_a2a_request (now : String) (req : A2ARequest) : A2AResponse :=
  match dispatch now req with
  | .ok resp => resp
  | .error (.valueError m) => ⟨"2.0", [], some ⟨-32000, m⟩, req.id⟩
  | .error e => ⟨"2.0", [], some ⟨-32002, "Unexpected error: " ++ strOfExc e⟩, req.id⟩

end Calc

namespace Weather

/-! Model of src/nodus_adk_agents/a2a_weather_agent.py.  The outbound
Open-Meteo call inside get_weather_forecast is abstracted as the parameter
forecastFn (get_weather_forecast catches every exception internally and
always returns a dict, so a total function is the faithful abstraction). -/

/-- Model of the weather handle_a2a_request. -/
def handle_a2a_request (forecastFn : J → J → JDict) (body : RpcBody) : RpcResp :=
  if body.jsonrpc ≠ some (.str "2.0") then
    ⟨"2.0", none, some ⟨-32600, "Invalid Request"⟩, body.id, 400⟩
  else if body.method = some (.str "get_forecast") then
    let city := (jGet body.params "city").getD (.str "barcelona")
    let days := (jGet body.params "days").getD (.num ⟨1, 1⟩)
    ⟨"2.0", some (forecastFn city days), none, body.id, 200⟩
  else
    ⟨"2.0", none, some ⟨-32601, "Method not found: " ++ pyStrOf body.method⟩, body.id, 404⟩

end Weather

namespace Currency

/-! Model of src/nodus_adk_agents/a2a_currency_agent.py.  The outbound
ExchangeRate-API calls are abstracted as total functions (both
get_exchange_rate and convert_multiple catch exceptions internally and
always return a dict). -/

/-- The module constant SUPPORTED_CURRENCIES. -/
def SUPPORTED_CURRENCIES : List String :=
  ["EUR", "USD", "GBP", "JPY", "CHF", "CAD", "AUD", "CNY", "INR", "BRL",
   "MXN", "ZAR", "SEK", "NOK", "DKK", "PLN", "CZK", "HUF", "RON", "BGN",
   "HRK", "ISK", "TRY", "RUB", "KRW", "HKD", "SGD", "NZD", "THB", "MYR"]

/-- Model of the currency handle_a2a_request. -/
def handle_a2a_request (convertFn : J → J → J → JDict)
    (convertMultipleFn : J → J → J → JDict) (body : RpcBody) : RpcResp :=
  if body.jsonrpc ≠ some (.str "2.0") then
    ⟨"2.0", none, some ⟨-32600, "Invalid Request"⟩, body.id, 400⟩
  else if body.method = some (.str "convert") then
    let fromC := (jGet body.params "from_currency").getD (.str "EUR")
    let toC := (jGet body.params "to_currency").getD (.str "USD")
    let amount := (jGet body.params "amount").getD (.num ⟨1, 1⟩)
    ⟨"2.0", some (convertFn fromC toC amount), none, body.id, 200⟩
  else if body.method = some (.str "convert_multiple") then
    let fromC := (jGet body.params "from_currency").getD (.str "EUR")
    let toCs := (jGet body.params "to_currencies").getD (.strList ["USD", "GBP"])
    let amount := (jGet body.params "amount").getD (.num ⟨1, 1⟩)
    ⟨"2.0", some (convertMultipleFn fromC toCs amount), none, body.id, 200⟩
  else if body.method = some (.str "supported_currencies") then
    ⟨"2.0",
     some [("currencies", .strList SUPPORTED_CURRENCIES),
           ("count", .num ⟨SUPPORTED_CURRENCIES.length, 1⟩)],
     none, body.id, 200⟩
  else
    ⟨"2.0", none, some ⟨-32601, "Method not found: " ++ pyStrOf body.method⟩, body.id, 404⟩

end Currency

namespace Hitl

/-! Model of src/nodus_adk_agents/a2a_hitl_math_agent.py. -/

/-- Quoted rendering used by the unknown-method message of this agent. -/
def quoted (s : String) : String := String.singleton qch ++ s ++ String.singleton qch

/-- Keyword binding and execution of the two local tools.  These are local
computations (no outbound call): multiply_with_confirmation only formats
its arguments into the HITL marker dict and succeeds for any base_number;
execute_multiplication multiplies.  Errors model the exceptions (missing or
unexpected keyword arguments, unsupported operand types) that the outer
except-block converts to error code -32603.  String repetition by an
integer factor is outside the model (no claim depends on it). -/
def callTool (method : String) (params : JDict) : Except String JDict :=
  if method = "multiply_with_confirmation" then
    if !(params.all (fun p => p.1 = "base_number" || p.1 = "factor" || p.1 = "user_id")) then
      .error "multiply_with_confirmation got an unexpected keyword argument"
    else
      match jGet params "base_number" with
      | none => .error "multiply_with_confirmation missing 1 required positional argument"
      | some b =>
        let factor := (jGet params "factor").getD (.num ⟨2, 1⟩)
        .ok [("status", .str "hitl_required"),
             ("action_type", .str "math_multiplication"),
             ("action_description", .str ("Multiplicar " ++ pyStrOf (some b) ++ " per un numero")),
             ("base_number", b), ("factor", factor),
             ("operation", .str "multiplication"), ("input_type", .str "number"),
             ("question", .str ("Per quin numero vols multiplicar " ++ pyStrOf (some b) ++ "?")),
             ("preview", .str ("Multiplicacio de " ++ pyStrOf (some b)))]
  else
    if !(params.all (fun p => p.1 = "base_number" || p.1 = "factor")) then
      .error "execute_multiplication got an unexpected keyword argument"
    else
      match jGet params "base_number" with
      | none => .error "execute_multiplication missing 1 required positional argument"
      | some b =>
        let factor := (jGet params "factor").getD (.num ⟨2, 1⟩)
        match b, factor with
        | .num qb, .num qf =>
          let r := qb.mul qf
          .ok [("base_number", .num qb), ("factor", .num qf), ("result", .num r),
               ("operation", .str "multiplication"),
               ("explanation", .str ("El resultat de " ++ qStr qb ++ " x " ++ qStr qf ++ " es " ++ qStr r))]
        | _, _ => .error "unsupported operand type for multiplication"

/-- Model of the HITL math a2a_handler.  This agent performs no jsonrpc
validation; the success branch emits an explicit error None, the error
branches omit the result key; every response has HTTP status 200. -/
def a2a_handler (body : RpcBody) : RpcResp :=
  if body.method = some (.str "multiply_with_confirmation")
      || body.method = some (.str "execute_multiplication") then
    match callTool (pyStrOf body.method) body.params with
    | .ok d => ⟨"2.0", some d, none, body.id, 200⟩
    | .error m => ⟨"2.0", none, some ⟨-32603, m⟩, body.id, 200⟩
  else
    ⟨"2.0", none,
     some ⟨-32601, "Method " ++ quoted (pyStrOf body.method) ++ " not found"⟩,
     body.id, 200⟩

end Hitl

namespace Pool

/-! Model of src/nodus_adk_agents/agent_pool_manager.py.  The Python module
system is abstracted as an environment mapping module paths to loaded
modules; a missing entry models an ImportError from import_module (and,
in reload_agent, a failure of importlib.reload).  The FastAPI mount call
mutates routing state outside the registry and is not part of the model. -/

/-- A loaded module; app is None when the module lacks an app attribute. -/
structure PyModule where
  app : Option ℕ
deriving DecidableEq, Repr

/-- The import environment: what import_module returns per module path. -/
abbrev ImportEnv := String → Option PyModule

/-- One registry entry, as stored in self.agents (the module app object is
kept as its abstract handle). -/
structure Entry where
  module : String
  app : ℕ
  mount_path : String
  config : JDict
  a2a_endpoint : String
  card_endpoint : String
deriving DecidableEq, Repr

/-- The registry self.agents: an association list with the Python dict
discipline (at most one occurrence of a key). -/
abbrev Registry := List (String × Entry)

/-- Number of entries stored under a given name. -/
def countKey (st : Registry) (name : String) : ℕ :=
  (st.filter (fun p => p.1 = name)).length

/-- Python dict assignment: replace in place when the key exists, append
otherwise. -/
def dictSet (st : Registry) (k : String) (v : Entry) : Registry :=
  if st.any (fun p => p.1 = k) then
    st.map (fun p => if p.1 = k then (k, v) else p)
  else st ++ [(k, v)]

/-- Dict lookup in the registry. -/
def lookupEntry (st : Registry) (k : String) : Option Entry :=
  (st.find? (fun p => p.1 == k)).map Prod.snd

/-- Model of AgentPoolManager.register_agent.  The whole body is wrapped in
try-except, so the function returns a bool and never raises: on ImportError
or a missing app attribute it returns false with the registry untouched;
otherwise it stores the entry under the name (dict assignment, hence
overwrite) with mount_path defaulting to slash name and the derived
endpoint strings. -/
def register_agent (env : ImportEnv) (st : Registry) (name module_path : String)
    (config : Option JDict) (mount_path : Option String) : Bool × Registry :=
  match env module_path with
  | none => (false, st)
  | some m =>
    match m.app with
    | none => (false, st)
    | some a =>
      let mp := match mount_path with
        | none => "/" ++ name
        | some p => p
      (true, dictSet st name ⟨module_path, a, mp, config.getD [], mp ++ "/a2a", mp ++ "/"⟩)

/-- Model of AgentPoolManager.unregister_agent: delete the entry (the
mounted app itself stays routed, a documented limitation outside the
registry model). -/
def unregister_agent (st : Registry) (name : String) : Bool × Registry :=
  match lookupEntry st name with
  | none => (false, st)
  | some _ => (true, st.filter (fun p => p.1 ≠ name))

/-- Model of AgentPoolManager.reload_agent: look the entry up, re-import
the module (a reload failure returns false), then re-register under the
same name, module, config and mount path.  The existing entry is never
removed first; success relies on dict-assignment overwrite. -/
def reload_agent (env : ImportEnv) (st : Registry) (name : String) : Bool × Registry :=
  match lookupEntry st name with
  | none => (false, st)
  | some info =>
    match env info.module with
    | none => (false, st)
    | some _ => register_agent env st name info.module (some info.config) (some info.mount_path)

/-- One entry of the agents list of the JSON configuration document. -/
structure AgentDef where
  name : String
  module_path : String
  enabled : Option Bool
  config : Option JDict
deriving DecidableEq, Repr

/-- The outcome of opening and decoding the configuration file. -/
inductive ConfigSource where
  | missing
  | malformed
  | parsed (agents : List AgentDef)
deriving DecidableEq, Repr

/-- The registration loop of load_from_config: skip entries whose enabled
field is false, attempt registration for the rest, count successes. -/
def loadGo (env : ImportEnv) : List AgentDef → Registry → ℕ → ℕ × Registry
  | [], st, loaded => (loaded, st)
  | d :: ds, st, loaded =>
    if d.enabled.getD true = false then loadGo env ds st loaded
    else
      let r := register_agent env st d.name d.module_path (some (d.config.getD [])) none
      loadGo env ds r.2 (if r.1 then loaded + 1 else loaded)

/-- Model of AgentPoolManager.load_from_config: a missing file or malformed
JSON returns 0 with the registry untouched (the except-blocks), otherwise
the registration loop runs over the decoded agents list. -/
def load_from_config (env : ImportEnv) (st : Registry) (src : ConfigSource) : ℕ × Registry :=
  match src with
  | .missing => (0, st)
  | .malformed => (0, st)
  | .parsed ds => loadGo env ds st 0

/-- Successful-registration count along the list, threading the registry,
used to state what load_from_config returns. -/
def regSuccCount (env : ImportEnv) : List AgentDef → Registry → ℕ
  | [], _ => 0
  | d :: ds, st =>
    let r := register_agent env st d.name d.module_path (some (d.config.getD [])) none
    (if r.1 then 1 else 0) + regSuccCount env ds r.2

end Pool

/-- The attack string of the specification: dunder import of os, with the
quotes spelled through their character code. -/
def importOsStr : String :=
  String.mk (['_', '_', 'i', 'm', 'p', 'o', 'r', 't', '_', '_', '('] ++ [qch, 'o', 's', qch, ')'])

/-! ### Helper lemmas -/

/-- An expression referencing a name outside the restricted namespace never
evaluates to a value: the reference is reached (all operands of arithmetic
operators and all call arguments are evaluated) or evaluation has already
failed earlier, and in either case the result is an error. -/
theorem evalE_error_of_badName (ast : PyExpr) (x : String)
    (hx : x ∈ exprNames ast) (hns : x ∉ safe_dict_names) :
    ∃ m, evalE ast = .error m := by
  induction ast with
  | num q => simp [exprNames] at hx
  | lit s => simp [exprNames] at hx
  | name y =>
    simp [exprNames] at hx
    subst hx
    have hpi : x ≠ "pi" := by rintro rfl; exact hns (by decide)
    have hee : x ≠ "e" := by rintro rfl; exact hns (by decide)
    exact ⟨"name " ++ x ++ " is not defined", by simp [evalE, hpi, hee, hns]⟩
  | neg a ih =>
    simp only [exprNames] at hx
    obtain ⟨m, hm⟩ := ih hx
    exact ⟨m, by simp [evalE, hm]⟩
  | add a b iha ihb =>
    rcases List.mem_append.mp hx with h | h
    · obtain ⟨m, hm⟩ := iha h
      exact ⟨m, by simp [evalE, hm]⟩
    · cases hva : evalE a with
      | error m2 => exact ⟨m2, by simp [evalE, hva]⟩
      | ok v =>
        obtain ⟨m, hm⟩ := ihb h
        exact ⟨m, by simp [evalE, hva, hm]⟩
  | sub a b iha ihb =>
    rcases List.mem_append.mp hx with h | h
    · obtain ⟨m, hm⟩ := iha h
      exact ⟨m, by simp [evalE, hm]⟩
    · cases hva : evalE a with
      | error m2 => exact ⟨m2, by simp [evalE, hva]⟩
      | ok v =>
        obtain ⟨m, hm⟩ := ihb h
        exact ⟨m, by simp [evalE, hva, hm]⟩
  | mul a b iha ihb =>
    rcases List.mem_append.mp hx with h | h
    · obtain ⟨m, hm⟩ := iha h
      exact ⟨m, by simp [evalE, hm]⟩
    · cases hva : evalE a with
      | error m2 => exact ⟨m2, by simp [evalE, hva]⟩
      | ok v =>
        obtain ⟨m, hm⟩ := ihb h
        exact ⟨m, by simp [evalE, hva, hm]⟩
  | div a b iha ihb =>
    rcases List.mem_append.mp hx with h | h
    · obtain ⟨m, hm⟩ := iha h
      exact ⟨m, by simp [evalE, hm]⟩
    · cases hva : evalE a with
      | error m2 => exact ⟨m2, by simp [evalE, hva]⟩
      | ok v =>
        obtain ⟨m, hm⟩ := ihb h
        exact ⟨m, by simp [evalE, hva, hm]⟩
  | pow a b iha ihb =>
    rcases List.mem_append.mp hx with h | h
    · obtain ⟨m, hm⟩ := iha h
      exact ⟨m, by simp [evalE, hm]⟩
    · cases hva : evalE a with
      | error m2 => exact ⟨m2, by simp [evalE, hva]⟩
      | ok v =>
        obtain ⟨m, hm⟩ := ihb h
        exact ⟨m, by simp [evalE, hva, hm]⟩
  | call1 g a ih =>
    simp only [exprNames, List.mem_cons] at hx
    rcases hx with h | h
    · subst h
      exact ⟨"name " ++ x ++ " is not defined", by simp [evalE, hns]⟩
    · by_cases hg : g ∈ safe_dict_names
      · obtain ⟨m, hm⟩ := ih h
        exact ⟨m, by simp [evalE, hg, hm]⟩
      · exact ⟨"name " ++ g ++ " is not defined", by simp [evalE, hg]⟩
  | call2 g a b iha ihb =>
    simp only [exprNames, List.mem_cons, List.mem_append] at hx
    rcases hx with h | h | h
    · subst h
      exact ⟨"name " ++ x ++ " is not defined", by simp [evalE, hns]⟩
    · by_cases hg : g ∈ safe_dict_names
      · obtain ⟨m, hm⟩ := iha h
        exact ⟨m, by simp [evalE, hg, hm]⟩
      · exact ⟨"name " ++ g ++ " is not defined", by simp [evalE, hg]⟩
    · by_cases hg : g ∈ safe_dict_names
      · cases hva : evalE a with
        | error m2 => exact ⟨m2, by simp [evalE, hg, hva]⟩
        | ok v =>
          obtain ⟨m, hm⟩ := ihb h
          exact ⟨m, by simp [evalE, hg, hva, hm]⟩
      · exact ⟨"name " ++ g ++ " is not defined", by simp [evalE, hg]⟩

/-- The eval branch always fails with the wrapping prefix when the string
does not parse or its parse references a name outside the namespace. -/
theorem evalBranch_error_of_bad (s : String)
    (h : parseFull s = none ∨
      ∃ ast x, parseFull s = some ast ∧ x ∈ exprNames ast ∧ x ∉ safe_dict_names) :
    ∃ m, evalBranch s = .error ("Invalid expression: " ++ m) := by
  rcases h with h | ⟨ast, x, hast, hx, hns⟩
  · exact ⟨"invalid syntax", by simp [evalBranch, h]⟩
  · obtain ⟨m, hm⟩ := evalE_error_of_badName ast x hx hns
    exact ⟨m, by simp [evalBranch, hast, hm]⟩

/-! ### Claims -/

/-- C5: The calculator expression evaluator returns 30 on "15% of 200",
4 on "2 + 2" and 12 on "sqrt(144)"; and every input whose substituted form
contains a percent sign and the infix " of " and splits on " of " into two
parts that parse as floats (after stripping the percent sign from the
first) returns (percent divided by 100) times value directly from the
percentage branch, whatever the general evaluator would do with the
string. -/
theorem calculator_expression_values :
    safe_eval_expression "15% of 200" = .ok ⟨30, 1⟩ ∧
    safe_eval_expression "2 + 2" = .ok ⟨4, 1⟩ ∧
    safe_eval_expression "sqrt(144)" = .ok ⟨12, 1⟩ ∧
    (∀ s p0 p1 pct v,
      strHas (applySubsts s) "%" = true →
      strHas (applySubsts s) " of " = true →
      pySplit (applySubsts s) " of " = [p0, p1] →
      pyFloatParse (pyStrip (pyReplace p0 "%" "")) = some pct →
      pyFloatParse (pyStrip p1) = some v →
      safe_eval_expression s = .ok ((pct.div (PyQ.ofInt 100)).mul v)) := by
  refine ⟨by decide, by decide, by decide, ?_⟩
  intro s p0 p1 pct v h1 h2 h3 h4 h5
  simp only [safe_eval_expression, h1, h2, h3, h4, h5, Bool.and_self, if_true]

/-- Witness for C5 at a fresh concrete input. -/
theorem calculator_expression_values_witness :
    strHas (applySubsts "10% of 50") "%" = true ∧
    pySplit (applySubsts "10% of 50") " of " = ["10%", "50"] ∧
    safe_eval_expression "10% of 50" = .ok ((PyQ.div ⟨10, 1⟩ (PyQ.ofInt 100)).mul ⟨50, 1⟩) :=
  ⟨by decide, by decide,
   calculator_expression_values.2.2.2 "10% of 50" "10%" "50" ⟨10, 1⟩ ⟨50, 1⟩
     (by decide) (by decide) (by decide) (by decide) (by decide)⟩

/-- C10: When the substituted input contains a percent sign and " of " and
splits on " of " into exactly two parts, only the percentage interpretation
runs: if either part fails to parse as a plain float, the call fails with
the ValueError of float(), and never falls back to general evaluation. -/
theorem percentage_branch_exclusive :
    ∀ s p0 p1,
      strHas (applySubsts s) "%" = true →
      strHas (applySubsts s) " of " = true →
      pySplit (applySubsts s) " of " = [p0, p1] →
      (pyFloatParse (pyStrip (pyReplace p0 "%" "")) = none ∨ pyFloatParse (pyStrip p1) = none) →
      safe_eval_expression s = .error "could not convert string to float" := by
  intro s p0 p1 h1 h2 h3 h4
  simp only [safe_eval_expression, h1, h2, h3, Bool.and_self, if_true]
  rcases h4 with h | h
  · rw [h]
  · rw [h]
    cases pyFloatParse (pyStrip (pyReplace p0 "%" "")) <;> rfl

/-- Witness for C10: an arithmetic subexpression after " of " is rejected,
not evaluated. -/
theorem percentage_branch_exclusive_witness :
    pySplit (applySubsts "10% of 2 + 3") " of " = ["10%", "2 + 3"] ∧
    safe_eval_expression "10% of 2 + 3" = .error "could not convert string to float" :=
  ⟨by decide,
   percentage_branch_exclusive "10% of 2 + 3" "10%" "2 + 3"
     (by decide) (by decide) (by decide) (Or.inr (by decide))⟩

/-- C6: Inputs that reach the eval branch and reference a name outside the
fixed allow-list, or do not parse as an arithmetic expression, make
safe_eval_expression fail with a ValueError (the wrapped Invalid expression
message); the dunder-import attack string fails exactly that way; and the
calculator handler surfaces any safe_eval_expression failure as a response
with error code -32000. -/
theorem safe_eval_namespace_restriction :
    (∀ s,
      (strHas (applySubsts s) "%" = false ∨ strHas (applySubsts s) " of " = false) →
      (parseFull (applySubsts s) = none ∨
        ∃ ast x, parseFull (applySubsts s) = some ast ∧ x ∈ exprNames ast ∧ x ∉ safe_dict_names) →
      ∃ m, safe_eval_expression s = .error ("Invalid expression: " ++ m)) ∧
    safe_eval_expression importOsStr =
      .error "Invalid expression: name __import__ is not defined" ∧
    (∀ now req s m,
      req.method = "calculate" →
      jGet req.params "expression" = some (.str s) →
      pyTruthy (.str s) = true →
      safe_eval_expression s = .error m →
      Calc.handle_a2a_request now req = ⟨"2.0", [], some ⟨-32000, m⟩, req.id⟩) := by
  refine ⟨?_, by decide, ?_⟩
  · intro s hbr hbad
    have hcond : (strHas (applySubsts s) "%" && strHas (applySubsts s) " of ") = false := by
      rcases hbr with h | h <;> simp [h]
    obtain ⟨m, hm⟩ := evalBranch_error_of_bad (applySubsts s) hbad
    exact ⟨m, by simp only [safe_eval_expression, hcond, Bool.false_eq_true, if_false, hm]⟩
  · intro now req s m hmeth hexp htr herr
    simp [Calc.handle_a2a_request, Calc.dispatch, hmeth, hexp, pyTruthyOpt, htr, herr]

/-- Witness for C6 at the dunder-import input. -/
theorem safe_eval_namespace_restriction_witness :
    safe_eval_expression importOsStr =
      .error "Invalid expression: name __import__ is not defined" ∧
    Calc.handle_a2a_request "t" ⟨"2.0", "calculate", [("expression", .str importOsStr)], 9⟩ =
      ⟨"2.0", [], some ⟨-32000, "Invalid expression: name __import__ is not defined"⟩, 9⟩ :=
  ⟨safe_eval_namespace_restriction.2.1,
   safe_eval_namespace_restriction.2.2 "t"
     ⟨"2.0", "calculate", [("expression", .str importOsStr)], 9⟩
     importOsStr "Invalid expression: name __import__ is not defined"
     rfl (by decide) (by decide) safe_eval_namespace_restriction.2.1⟩

/-- The skip test of load_from_config equals filtering the agents list to
the entries whose enabled field is not false. -/
theorem loadGo_skips_disabled (env : Pool.ImportEnv) :
    ∀ ds st n, Pool.loadGo env ds st n =
      Pool.loadGo env (ds.filter (fun d => d.enabled.getD true)) st n := by
  intro ds
  induction ds with
  | nil => intro st n; rfl
  | cons d ds ih =>
    intro st n
    cases hd : d.enabled.getD true with
    | false => simp [Pool.loadGo, hd, List.filter_cons, ih]
    | true => simp [Pool.loadGo, hd, List.filter_cons, ih]

/-- The count returned by the registration loop is the running total plus
the number of successful registrations over the non-skipped entries. -/
theorem loadGo_count (env : Pool.ImportEnv) :
    ∀ ds st n, (Pool.loadGo env ds st n).1 =
      n + Pool.regSuccCount env (ds.filter (fun d => d.enabled.getD true)) st := by
  intro ds
  induction ds with
  | nil => intro st n; simp [Pool.loadGo, Pool.regSuccCount]
  | cons d ds ih =>
    intro st n
    cases hd : d.enabled.getD true with
    | false => simp [Pool.loadGo, hd, List.filter_cons, ih]
    | true =>
      simp only [Pool.loadGo, hd, Bool.true_eq_false, if_false, List.filter_cons, if_true]
      rw [ih]
      simp only [Pool.regSuccCount]
      cases (Pool.register_agent env st d.name d.module_path (some (d.config.getD [])) none).1 with
      | false => simp
      | true => simp
                omega

/-- A key is absent from the registry exactly when no entry matches it. -/
theorem countKey_eq_zero_iff (st : Pool.Registry) (k : String) :
    Pool.countKey st k = 0 ↔ st.any (fun p => decide (p.1 = k)) = false := by
  induction st with
  | nil => simp [Pool.countKey]
  | cons p ps ih =>
    by_cases hp : p.1 = k
    · simp [Pool.countKey, List.filter_cons, hp]
    · simp only [Pool.countKey, List.filter_cons, hp, List.any_cons, decide_eq_true_eq] at ih ⊢
      simp [hp, ih]

/-- Replacing the value stored under a key preserves how many entries
carry that key. -/
theorem countKey_map_update (st : Pool.Registry) (k : String) (v : Pool.Entry) :
    Pool.countKey (st.map (fun p => if p.1 = k then (k, v) else p)) k = Pool.countKey st k := by
  induction st with
  | nil => rfl
  | cons p ps ih =>
    by_cases hp : p.1 = k
    · simpa [Pool.countKey, List.filter_cons, hp] using ih
    · simpa [Pool.countKey, List.filter_cons, hp] using ih

/-- Appending a fresh entry adds one occurrence of its key. -/
theorem countKey_append_single (st : Pool.Registry) (k : String) (v : Pool.Entry) :
    Pool.countKey (st ++ [(k, v)]) k = Pool.countKey st k + 1 := by
  simp [Pool.countKey, List.filter_append]

/-- A successful registration is exactly a dict assignment on the registry. -/
theorem register_true_dictSet (env : Pool.ImportEnv) (st : Pool.Registry)
    (name mp : String) (config : Option JDict) (mtp : Option String) (st2 : Pool.Registry)
    (h : Pool.register_agent env st name mp config mtp = (true, st2)) :
    ∃ e, st2 = Pool.dictSet st name e := by
  unfold Pool.register_agent at h
  cases he : env mp with
  | none => simp [he] at h
  | some m =>
    cases ha : m.app with
    | none => simp [he, ha] at h
    | some a =>
      simp only [he, ha, Prod.mk.injEq] at h
      exact ⟨_, h.2.symm⟩

/-- Dict assignment on a present key keeps the length and the occurrence
count of that key. -/
theorem dictSet_present (st : Pool.Registry) (k : String) (v : Pool.Entry)
    (h : Pool.countKey st k ≠ 0) :
    (Pool.dictSet st k v).length = st.length ∧
      Pool.countKey (Pool.dictSet st k v) k = Pool.countKey st k := by
  have ha : st.any (fun p => decide (p.1 = k)) = true := by
    cases hx : st.any (fun p => decide (p.1 = k)) with
    | false => exact absurd ((countKey_eq_zero_iff st k).mpr hx) h
    | true => rfl
  constructor
  · simp [Pool.dictSet, ha]
  · simpa [Pool.dictSet, ha] using countKey_map_update st k v

/-- Dict assignment on an absent key appends exactly one entry for it. -/
theorem dictSet_absent (st : Pool.Registry) (k : String) (v : Pool.Entry)
    (h : Pool.countKey st k = 0) :
    (Pool.dictSet st k v).length = st.length + 1 ∧
      Pool.countKey (Pool.dictSet st k v) k = 1 := by
  have ha : st.any (fun p => decide (p.1 = k)) = false := (countKey_eq_zero_iff st k).mp h
  constructor
  · simp [Pool.dictSet, ha]
  · simp [Pool.dictSet, ha, countKey_append_single, h]

/-- C7: When the import environment has no module under the path, or the
module has no app attribute, register_agent returns false and the registry
is unchanged (same entries, hence same count); the function is total, so
nothing is raised to the caller. -/
theorem register_agent_fails_closed :
    ∀ (env : Pool.ImportEnv) (st : Pool.Registry) (name module_path : String)
      (config : Option JDict) (mount_path : Option String),
      (env module_path = none ∨ ∃ m, env module_path = some m ∧ m.app = none) →
      Pool.register_agent env st name module_path config mount_path = (false, st) := by
  intro env st name mp config mtp h
  rcases h with h | ⟨m, hm, ha⟩
  · simp [Pool.register_agent, h]
  · simp [Pool.register_agent, hm, ha]

/-- Witness for C7: an import failure and a module without an app
attribute both leave a one-entry registry untouched and return false. -/
theorem register_agent_fails_closed_witness :
    ((fun _ => none : Pool.ImportEnv) "mx" = none ∨
      ∃ m, (fun _ => none : Pool.ImportEnv) "mx" = some m ∧ m.app = none) ∧
    Pool.register_agent (fun _ => none) [("a", ⟨"m0", 0, "/a", [], "/a/a2a", "/a/"⟩)]
      "x" "mx" none none = (false, [("a", ⟨"m0", 0, "/a", [], "/a/a2a", "/a/"⟩)]) ∧
    Pool.register_agent (fun _ => some ⟨none⟩) [] "x" "mx" none none = (false, []) :=
  ⟨Or.inl rfl,
   register_agent_fails_closed (fun _ => none) [("a", ⟨"m0", 0, "/a", [], "/a/a2a", "/a/"⟩)]
     "x" "mx" none none (Or.inl rfl),
   register_agent_fails_closed (fun _ => some ⟨none⟩) [] "x" "mx" none none
     (Or.inr ⟨⟨none⟩, rfl, rfl⟩)⟩

/-- C8: load_from_config returns 0 with the registry untouched on a missing
file and on malformed JSON; its loop attempts registration exactly for the
entries whose enabled field is true or absent (skipping equals filtering);
the returned number is the count of successful registrations among those;
and on a concrete listing of 3 agents with one disabled and the other two
loadable it registers exactly those two and returns 2. -/
theorem load_from_config_semantics :
    (∀ env st, Pool.load_from_config env st .missing = (0, st)) ∧
    (∀ env st, Pool.load_from_config env st .malformed = (0, st)) ∧
    (∀ env ds st n, Pool.loadGo env ds st n =
      Pool.loadGo env (ds.filter (fun d => d.enabled.getD true)) st n) ∧
    (∀ env st ds, (Pool.load_from_config env st (.parsed ds)).1 =
      Pool.regSuccCount env (ds.filter (fun d => d.enabled.getD true)) st) ∧
    Pool.load_from_config
      (fun p => if p = "m1" || p = "m3" then some ⟨some 1⟩ else none) []
      (.parsed [⟨"a1", "m1", none, none⟩, ⟨"a2", "m2", some false, none⟩,
                ⟨"a3", "m3", some true, none⟩]) =
      (2, [("a1", ⟨"m1", 1, "/a1", [], "/a1/a2a", "/a1/"⟩),
           ("a3", ⟨"m3", 1, "/a3", [], "/a3/a2a", "/a3/"⟩)]) := by
  refine ⟨fun env st => rfl, fun env st => rfl, loadGo_skips_disabled, ?_, by decide⟩
  intro env st ds
  simpa [Pool.load_from_config] using loadGo_count env ds st 0

/-- C9: A successful register_agent under an existing name replaces the
entry in place: the registry keeps its length and keeps exactly one entry
for that name; under a fresh name it appends exactly one entry; and a
successful reload_agent (which never deletes the entry first) also keeps
the length and the single entry for the name. -/
theorem register_overwrite_semantics :
    (∀ (env : Pool.ImportEnv) (st : Pool.Registry) (name module_path : String)
      (config : Option JDict) (mount_path : Option String) (st2 : Pool.Registry),
      Pool.countKey st name = 1 →
      Pool.register_agent env st name module_path config mount_path = (true, st2) →
      st2.length = st.length ∧ Pool.countKey st2 name = 1) ∧
    (∀ (env : Pool.ImportEnv) (st : Pool.Registry) (name module_path : String)
      (config : Option JDict) (mount_path : Option String) (st2 : Pool.Registry),
      Pool.countKey st name = 0 →
      Pool.register_agent env st name module_path config mount_path = (true, st2) →
      st2.length = st.length + 1 ∧ Pool.countKey st2 name = 1) ∧
    (∀ (env : Pool.ImportEnv) (st : Pool.Registry) (name : String) (st2 : Pool.Registry),
      Pool.countKey st name = 1 →
      Pool.reload_agent env st name = (true, st2) →
      st2.length = st.length ∧ Pool.countKey st2 name = 1) := by
  refine ⟨?_, ?_, ?_⟩
  · intro env st name mp config mtp st2 hck hreg
    obtain ⟨e, rfl⟩ := register_true_dictSet env st name mp config mtp st2 hreg
    have h := dictSet_present st name e (by omega)
    exact ⟨h.1, by rw [h.2, hck]⟩
  · intro env st name mp config mtp st2 hck hreg
    obtain ⟨e, rfl⟩ := register_true_dictSet env st name mp config mtp st2 hreg
    exact dictSet_absent st name e hck
  · intro env st name st2 hck hrel
    unfold Pool.reload_agent at hrel
    cases hl : Pool.lookupEntry st name with
    | none => simp [hl] at hrel
    | some info =>
      simp only [hl] at hrel
      cases he : env info.module with
      | none => simp [he] at hrel
      | some m =>
        simp only [he] at hrel
        obtain ⟨e, rfl⟩ :=
          register_true_dictSet env st name info.module (some info.config)
            (some info.mount_path) st2 hrel
        have h := dictSet_present st name e (by omega)
        exact ⟨h.1, by rw [h.2, hck]⟩

/-- Witness for C9: overwriting a present name keeps one entry and the
length; registering a fresh name appends. -/
theorem register_overwrite_semantics_witness :
    Pool.countKey [("a", ⟨"m0", 0, "/a", [], "/a/a2a", "/a/"⟩)] "a" = 1 ∧
    Pool.register_agent (fun _ => some ⟨some 5⟩)
      [("a", ⟨"m0", 0, "/a", [], "/a/a2a", "/a/"⟩)] "a" "m1" none none =
      (true, [("a", ⟨"m1", 5, "/a", [], "/a/a2a", "/a/"⟩)]) ∧
    [("a", (⟨"m1", 5, "/a", [], "/a/a2a", "/a/"⟩ : Pool.Entry))].length =
      [("a", (⟨"m0", 0, "/a", [], "/a/a2a", "/a/"⟩ : Pool.Entry))].length ∧
    Pool.countKey [("a", ⟨"m1", 5, "/a", [], "/a/a2a", "/a/"⟩)] "a" = 1 :=
  ⟨by decide, by decide,
   (register_overwrite_semantics.1 (fun _ => some ⟨some 5⟩)
     [("a", ⟨"m0", 0, "/a", [], "/a/a2a", "/a/"⟩)] "a" "m1" none none
     [("a", ⟨"m1", 5, "/a", [], "/a/a2a", "/a/"⟩)] (by decide) (by decide)).1,
   (register_overwrite_semantics.1 (fun _ => some ⟨some 5⟩)
     [("a", ⟨"m0", 0, "/a", [], "/a/a2a", "/a/"⟩)] "a" "m1" none none
     [("a", ⟨"m1", 5, "/a", [], "/a/a2a", "/a/"⟩)] (by decide) (by decide)).2⟩

/-- Every success of the calculator dispatch carries protocol version 2.0,
a null error, a nonempty result dict and the echoed request id. -/
theorem dispatch_ok_shape (now : String) (req : Calc.A2ARequest) (resp : Calc.A2AResponse)
    (h : Calc.dispatch now req = .ok resp) :
    resp.jsonrpc = "2.0" ∧ resp.error = none ∧ resp.result ≠ [] ∧ resp.id = req.id := by
  unfold Calc.dispatch at h
  by_cases h1 : req.method = "calculate"
  · rw [if_pos h1] at h
    by_cases h2 : pyTruthyOpt (jGet req.params "expression") = false
    · rw [if_pos h2] at h
      simp at h
    · rw [if_neg h2] at h
      cases hexp : jGet req.params "expression" with
      | none => simp [hexp] at h
      | some v =>
        cases v with
        | null => simp [hexp] at h
        | bool b => simp [hexp] at h
        | num q => simp [hexp] at h
        | strList l => simp [hexp] at h
        | str s =>
          simp only [hexp] at h
          cases hse : safe_eval_expression s with
          | error m => simp [hse] at h
          | ok r =>
            simp only [hse] at h
            injection h with h
            subst h
            simp [Calc.calculationResultDump]
  · rw [if_neg h1] at h
    by_cases h2 : req.method = "percentage"
    · rw [if_pos h2] at h
      cases hp : Calc.pyFloat (jGet req.params "percentage") with
      | error e => simp [hp] at h
      | ok p =>
        cases hov : Calc.pyFloat (jGet req.params "of_value") with
        | error e => simp [hp, hov] at h
        | ok ov =>
          simp only [hp, hov] at h
          injection h with h
          subst h
          simp [Calc.calculationResultDump]
    · rw [if_neg h2] at h
      simp at h

/-- C1 (amended): on an unknown method the weather and currency agents
return error code -32601 with the method name in the message (format
Method not found colon name), the HITL math agent returns -32601 with the
format Method quoted-name not found, but the calculator agent instead
raises HTTPException(404), which its own except-block converts to error
code -32002 with message Unexpected error: 404: Method not found, a
message that does not contain the method name. -/
theorem unknown_method_error_codes :
    (∀ (fn : J → J → JDict) (body : RpcBody) (m : String),
      body.jsonrpc = some (.str "2.0") → body.method = some (.str m) → m ≠ "get_forecast" →
      Weather.handle_a2a_request fn body =
        ⟨"2.0", none, some ⟨-32601, "Method not found: " ++ m⟩, body.id, 404⟩) ∧
    (∀ (cf cmf : J → J → J → JDict) (body : RpcBody) (m : String),
      body.jsonrpc = some (.str "2.0") → body.method = some (.str m) →
      m ≠ "convert" → m ≠ "convert_multiple" → m ≠ "supported_currencies" →
      Currency.handle_a2a_request cf cmf body =
        ⟨"2.0", none, some ⟨-32601, "Method not found: " ++ m⟩, body.id, 404⟩) ∧
    (∀ (body : RpcBody) (m : String),
      body.method = some (.str m) →
      m ≠ "multiply_with_confirmation" → m ≠ "execute_multiplication" →
      Hitl.a2a_handler body =
        ⟨"2.0", none, some ⟨-32601, "Method " ++ Hitl.quoted m ++ " not found"⟩, body.id, 200⟩) ∧
    (∀ (now : String) (req : Calc.A2ARequest),
      req.method ≠ "calculate" → req.method ≠ "percentage" →
      Calc.handle_a2a_request now req =
        ⟨"2.0", [], some ⟨-32002, "Unexpected error: 404: Method not found"⟩, req.id⟩) := by
  refine ⟨?_, ?_, ?_, ?_⟩
  · intro fn body m hj hm hne
    simp [Weather.handle_a2a_request, hj, hm, hne, pyStrOf]
  · intro cf cmf body m hj hm h1 h2 h3
    simp [Currency.handle_a2a_request, hj, hm, h1, h2, h3, pyStrOf]
  · intro body m hm h1 h2
    simp [Hitl.a2a_handler, hm, h1, h2, pyStrOf]
  · intro now req h1 h2
    have hd : Calc.dispatch now req = .error (.httpException 404 "Method not found") := by
      simp [Calc.dispatch, h1, h2]
    have hmsg : "Unexpected error: " ++ (toString 404 ++ ": " ++ "Method not found") =
        "Unexpected error: 404: Method not found" := by decide
    simp [Calc.handle_a2a_request, hd, Calc.strOfExc, hmsg]

/-- Witness for C1 at concrete unknown methods on every agent. -/
theorem unknown_method_error_codes_witness :
    Weather.handle_a2a_request (fun _ _ => []) ⟨some (.str "2.0"), some (.str "zap"), [], some (.num ⟨1, 1⟩)⟩ =
      ⟨"2.0", none, some ⟨-32601, "Method not found: zap"⟩, some (.num ⟨1, 1⟩), 404⟩ ∧
    Currency.handle_a2a_request (fun _ _ _ => []) (fun _ _ _ => [])
      ⟨some (.str "2.0"), some (.str "zap"), [], none⟩ =
      ⟨"2.0", none, some ⟨-32601, "Method not found: zap"⟩, none, 404⟩ ∧
    Hitl.a2a_handler ⟨none, some (.str "zap"), [], none⟩ =
      ⟨"2.0", none, some ⟨-32601, "Method " ++ Hitl.quoted "zap" ++ " not found"⟩, none, 200⟩ ∧
    Calc.handle_a2a_request "t" ⟨"2.0", "zap", [], 7⟩ =
      ⟨"2.0", [], some ⟨-32002, "Unexpected error: 404: Method not found"⟩, 7⟩ :=
  ⟨unknown_method_error_codes.1 (fun _ _ => [])
     ⟨some (.str "2.0"), some (.str "zap"), [], some (.num ⟨1, 1⟩)⟩ "zap" rfl rfl (by decide),
   unknown_method_error_codes.2.1 (fun _ _ _ => []) (fun _ _ _ => [])
     ⟨some (.str "2.0"), some (.str "zap"), [], none⟩ "zap" rfl rfl
     (by decide) (by decide) (by decide),
   unknown_method_error_codes.2.2.1 ⟨none, some (.str "zap"), [], none⟩ "zap" rfl
     (by decide) (by decide),
   unknown_method_error_codes.2.2.2 "t" ⟨"2.0", "zap", [], 7⟩ (by decide) (by decide)⟩

/-- C1 counterexample: the calculator is an agent whose unknown-method
response carries error code -32002, not -32601, and a message without the
literal method name, refuting the every-agent claim at a concrete input. -/
theorem calc_unknown_method_not_32601 :
    (Calc.handle_a2a_request "t" ⟨"2.0", "frobnicate", [], 7⟩).error =
      some ⟨-32002, "Unexpected error: 404: Method not found"⟩ ∧
    ((-32002 : ℤ) = -32601 → False) ∧
    strHas "Unexpected error: 404: Method not found" "frobnicate" = false := by
  refine ⟨by decide, by decide, by decide⟩

/-- C2 (amended): for the weather, currency and HITL math agents every
response has exactly one of result and error non-null; the calculator
serializes result as a dict in every response (empty on error responses,
never null), so its error responses carry a non-null error together with
the empty object as result, while its success responses have a null error
and a nonempty result. -/
theorem response_result_error_exclusivity :
    (∀ (fn : J → J → JDict) (body : RpcBody),
      ((Weather.handle_a2a_request fn body).result.isSome ∧
        (Weather.handle_a2a_request fn body).error = none) ∨
      ((Weather.handle_a2a_request fn body).result = none ∧
        (Weather.handle_a2a_request fn body).error.isSome)) ∧
    (∀ (cf cmf : J → J → J → JDict) (body : RpcBody),
      ((Currency.handle_a2a_request cf cmf body).result.isSome ∧
        (Currency.handle_a2a_request cf cmf body).error = none) ∨
      ((Currency.handle_a2a_request cf cmf body).result = none ∧
        (Currency.handle_a2a_request cf cmf body).error.isSome)) ∧
    (∀ body : RpcBody,
      ((Hitl.a2a_handler body).result.isSome ∧ (Hitl.a2a_handler body).error = none) ∨
      ((Hitl.a2a_handler body).result = none ∧ (Hitl.a2a_handler body).error.isSome)) ∧
    (∀ (now : String) (req : Calc.A2ARequest),
      ((Calc.handle_a2a_request now req).error = none ∧
        (Calc.handle_a2a_request now req).result ≠ []) ∨
      ((Calc.handle_a2a_request now req).error.isSome ∧
        (Calc.handle_a2a_request now req).result = [])) := by
  refine ⟨?_, ?_, ?_, ?_⟩
  · intro fn body
    unfold Weather.handle_a2a_request
    split_ifs <;> simp
  · intro cf cmf body
    unfold Currency.handle_a2a_request
    split_ifs <;> simp
  · intro body
    unfold Hitl.a2a_handler
    split_ifs with hm
    · cases hct : Hitl.callTool (pyStrOf body.method) body.params with
      | ok d => simp [hct]
      | error m => simp [hct]
    · simp
  · intro now req
    cases hd : Calc.dispatch now req with
    | ok resp =>
      have h := dispatch_ok_shape now req resp hd
      exact Or.inl ⟨by simp [Calc.handle_a2a_request, hd, h.2.1],
                    by simp [Calc.handle_a2a_request, hd, h.2.2.1]⟩
    | error e =>
      cases e <;> exact Or.inr ⟨by simp [Calc.handle_a2a_request, hd],
                                by simp [Calc.handle_a2a_request, hd]⟩

/-- C2 counterexample: a calculator error response has a non-null error and
a result that serializes as the empty JSON object, not null, so the two
fields are not mutually exclusive there. -/
theorem calc_error_response_nonnull_result :
    (Calc.handle_a2a_request "t" ⟨"2.0", "calculate", [], 3⟩).error =
      some ⟨-32000, "Expression parameter is required"⟩ ∧
    Calc.resultWire (Calc.handle_a2a_request "t" ⟨"2.0", "calculate", [], 3⟩) = some [] ∧
    (some ([] : JDict) = (none : Option JDict) → False) := by
  refine ⟨by decide, by decide, by decide⟩

/-- C3 (amended): the weather and currency agents return -32600 Invalid
Request on any body whose jsonrpc field is not the string 2.0, without
dispatching (the response does not depend on the outbound functions or the
method); the calculator performs no protocol-version check at all: its
response is identical whatever string the jsonrpc field holds. -/
theorem protocol_version_validation :
    (∀ (fn : J → J → JDict) (body : RpcBody),
      body.jsonrpc ≠ some (.str "2.0") →
      Weather.handle_a2a_request fn body =
        ⟨"2.0", none, some ⟨-32600, "Invalid Request"⟩, body.id, 400⟩) ∧
    (∀ (cf cmf : J → J → J → JDict) (body : RpcBody),
      body.jsonrpc ≠ some (.str "2.0") →
      Currency.handle_a2a_request cf cmf body =
        ⟨"2.0", none, some ⟨-32600, "Invalid Request"⟩, body.id, 400⟩) ∧
    (∀ (now v1 v2 m : String) (ps : JDict) (i : ℤ),
      Calc.handle_a2a_request now ⟨v1, m, ps, i⟩ = Calc.handle_a2a_request now ⟨v2, m, ps, i⟩) := by
  refine ⟨?_, ?_, ?_⟩
  · intro fn body h
    simp [Weather.handle_a2a_request, h]
  · intro cf cmf body h
    simp [Currency.handle_a2a_request, h]
  · intro now v1 v2 m ps i
    rfl

/-- Witness for C3 at concrete non-2.0 protocol versions. -/
theorem protocol_version_validation_witness :
    Weather.handle_a2a_request (fun _ _ => []) ⟨some (.str "1.0"), some (.str "get_forecast"), [], none⟩ =
      ⟨"2.0", none, some ⟨-32600, "Invalid Request"⟩, none, 400⟩ ∧
    Currency.handle_a2a_request (fun _ _ _ => []) (fun _ _ _ => []) ⟨none, some (.str "convert"), [], none⟩ =
      ⟨"2.0", none, some ⟨-32600, "Invalid Request"⟩, none, 400⟩ ∧
    Calc.handle_a2a_request "t" ⟨"1.0", "zap", [], 1⟩ = Calc.handle_a2a_request "t" ⟨"2.0", "zap", [], 1⟩ :=
  ⟨protocol_version_validation.1 (fun _ _ => [])
     ⟨some (.str "1.0"), some (.str "get_forecast"), [], none⟩ (by decide),
   protocol_version_validation.2.1 (fun _ _ _ => []) (fun _ _ _ => [])
     ⟨none, some (.str "convert"), [], none⟩ (by decide),
   protocol_version_validation.2.2 "t" "1.0" "2.0" "zap" [] 1⟩

/-- C3 counterexample: the calculator dispatches a request whose jsonrpc
field is 1.0 and answers it with a result, not with -32600. -/
theorem calc_dispatches_despite_bad_protocol_version :
    Calc.handle_a2a_request "t" ⟨"1.0", "calculate", [("expression", .str "2 + 2")], 5⟩ =
      ⟨"2.0", Calc.calculationResultDump "2 + 2" ⟨4, 1⟩ "The result of 2 + 2 is 4" "t", none, 5⟩ ∧
    ((none : Option ErrObj) = some ⟨-32600, "Invalid Request"⟩ → False) := by
  refine ⟨by decide, by decide⟩

/-- C4: on a known method with well-formed parameters the handlers return a
non-null result object, a null error, and the caller-supplied id unchanged:
the calculator for calculate (expression present, truthy and evaluable) and
percentage (both parameters float-convertible), and the weather agent for
get_forecast on a valid envelope. -/
theorem known_method_success_envelope :
    (∀ (now s : String) (req : Calc.A2ARequest) (r : PyQ),
      req.method = "calculate" →
      jGet req.params "expression" = some (.str s) →
      pyTruthy (.str s) = true →
      safe_eval_expression s = .ok r →
      Calc.handle_a2a_request now req =
        ⟨"2.0", Calc.calculationResultDump s r ("The result of " ++ s ++ " is " ++ qStr r) now,
         none, req.id⟩) ∧
    (∀ (now : String) (req : Calc.A2ARequest) (p ov : PyQ),
      req.method = "percentage" →
      Calc.pyFloat (jGet req.params "percentage") = .ok p →
      Calc.pyFloat (jGet req.params "of_value") = .ok ov →
      Calc.handle_a2a_request now req =
        ⟨"2.0",
         Calc.calculationResultDump (qStr p ++ "% of " ++ qStr ov)
           ((p.div (PyQ.ofInt 100)).mul ov)
           (qStr p ++ "% of " ++ qStr ov ++ " is " ++ qStr ((p.div (PyQ.ofInt 100)).mul ov)) now,
         none, req.id⟩) ∧
    (∀ (fn : J → J → JDict) (body : RpcBody),
      body.jsonrpc = some (.str "2.0") →
      body.method = some (.str "get_forecast") →
      Weather.handle_a2a_request fn body =
        ⟨"2.0",
         some (fn ((jGet body.params "city").getD (.str "barcelona"))
                  ((jGet body.params "days").getD (.num ⟨1, 1⟩))),
         none, body.id, 200⟩) := by
  refine ⟨?_, ?_, ?_⟩
  · intro now s req r hm hexp htr hse
    have hd : Calc.dispatch now req =
        .ok ⟨"2.0", Calc.calculationResultDump s r ("The result of " ++ s ++ " is " ++ qStr r) now,
             none, req.id⟩ := by
      simp [Calc.dispatch, hm, hexp, pyTruthyOpt, htr, hse]
    simp [Calc.handle_a2a_request, hd]
  · intro now req p ov hm hp hov
    have hd : Calc.dispatch now req =
        .ok ⟨"2.0",
             Calc.calculationResultDump (qStr p ++ "% of " ++ qStr ov)
               ((p.div (PyQ.ofInt 100)).mul ov)
               (qStr p ++ "% of " ++ qStr ov ++ " is " ++ qStr ((p.div (PyQ.ofInt 100)).mul ov)) now,
             none, req.id⟩ := by
      simp [Calc.dispatch, hm, hp, hov]
    simp [Calc.handle_a2a_request, hd]
  · intro fn body hj hm
    simp [Weather.handle_a2a_request, hj, hm]

/-- Witness for C4 at concrete valid requests. -/
theorem known_method_success_envelope_witness :
    Calc.handle_a2a_request "t" ⟨"2.0", "calculate", [("expression", .str "2 + 2")], 11⟩ =
      ⟨"2.0", Calc.calculationResultDump "2 + 2" ⟨4, 1⟩ ("The result of 2 + 2 is " ++ qStr ⟨4, 1⟩) "t",
       none, 11⟩ ∧
    Calc.handle_a2a_request "t" ⟨"2.0", "percentage",
        [("percentage", .num ⟨15, 1⟩), ("of_value", .num ⟨200, 1⟩)], 12⟩ =
      ⟨"2.0",
       Calc.calculationResultDump (qStr ⟨15, 1⟩ ++ "% of " ++ qStr ⟨200, 1⟩)
         ((PyQ.div ⟨15, 1⟩ (PyQ.ofInt 100)).mul ⟨200, 1⟩)
         (qStr ⟨15, 1⟩ ++ "% of " ++ qStr ⟨200, 1⟩ ++ " is " ++
           qStr ((PyQ.div ⟨15, 1⟩ (PyQ.ofInt 100)).mul ⟨200, 1⟩)) "t",
       none, 12⟩ ∧
    Weather.handle_a2a_request (fun _ _ => [("ok", .bool true)])
      ⟨some (.str "2.0"), some (.str "get_forecast"), [], some (.num ⟨3, 1⟩)⟩ =
      ⟨"2.0", some [("ok", .bool true)], none, some (.num ⟨3, 1⟩), 200⟩ :=
  ⟨known_method_success_envelope.1 "t" "2 + 2"
     ⟨"2.0", "calculate", [("expression", .str "2 + 2")], 11⟩ ⟨4, 1⟩
     rfl (by decide) (by decide) (by decide),
   known_method_success_envelope.2.1 "t"
     ⟨"2.0", "percentage", [("percentage", .num ⟨15, 1⟩), ("of_value", .num ⟨200, 1⟩)], 12⟩
     ⟨15, 1⟩ ⟨200, 1⟩ rfl (by decide) (by decide),
   known_method_success_envelope.2.2 (fun _ _ => [("ok", .bool true)])
     ⟨some (.str "2.0"), some (.str "get_forecast"), [], some (.num ⟨3, 1⟩)⟩ rfl rfl⟩

end Nodus
